import Mathlib

/-!
Shallow embedding of the nrfdfu-ble DFU client (src/src/protocol.rs and
src/src/package.rs) and proofs about its protocol state machine, framing,
retry logic and integrity layer.

Bytes are modelled as Nat (values < 256 where it matters), u32 arithmetic
as Nat with explicit mod 2 ^ 32 at conversion points, fallible Rust code as
an explicit outcome type, and Rust panics (out of range indexing,
unimplemented, todo, unwrap on None, unreachable) as a distinguished
panic outcome.
-/

namespace NrfDfu

/-- DFU object kinds, from enum Object in protocol.rs:
Command = 0x01, Data = 0x02. -/
inductive Object
  | command
  | data
deriving DecidableEq

/-- Wire value of an Object (the repr u8 of the Rust enum). -/
def Object.toByte : Object → Nat
  | .command => 1
  | .data => 2

/-- DFU command opcodes, from enum OpCode in protocol.rs. -/
inductive OpCode
  | protocolVersion
  | objectCreate
  | receiptNotifSet
  | crcGet
  | objectExecute
  | objectSelect
  | mtuGet
  | objectWrite
  | ping
  | hardwareVersion
  | firmwareVersion
  | abort
deriving DecidableEq

/-- OpCode::try_from on a byte (TryFromPrimitive): recognized wire values
are 0x00..0x0C without 0x05. -/
def OpCode.ofByte (b : Nat) : Option OpCode :=
  if b = 0x00 then some .protocolVersion
  else if b = 0x01 then some .objectCreate
  else if b = 0x02 then some .receiptNotifSet
  else if b = 0x03 then some .crcGet
  else if b = 0x04 then some .objectExecute
  else if b = 0x06 then some .objectSelect
  else if b = 0x07 then some .mtuGet
  else if b = 0x08 then some .objectWrite
  else if b = 0x09 then some .ping
  else if b = 0x0A then some .hardwareVersion
  else if b = 0x0B then some .firmwareVersion
  else if b = 0x0C then some .abort
  else none

/-- DFU response result codes, from enum ResponseCode in protocol.rs. -/
inductive ResponseCode
  | invalid
  | success
  | opCodeNotSupported
  | invalidParameter
  | insufficientResources
  | invalidObject
  | unsupportedType
  | operationNotPermitted
  | operationFailed
  | extError
deriving DecidableEq

/-- ResponseCode::try_from on a byte: recognized wire values are
0x00..0x05, 0x07, 0x08, 0x0A, 0x0B. -/
def ResponseCode.ofByte (b : Nat) : Option ResponseCode :=
  if b = 0x00 then some .invalid
  else if b = 0x01 then some .success
  else if b = 0x02 then some .opCodeNotSupported
  else if b = 0x03 then some .invalidParameter
  else if b = 0x04 then some .insufficientResources
  else if b = 0x05 then some .invalidObject
  else if b = 0x07 then some .unsupportedType
  else if b = 0x08 then some .operationNotPermitted
  else if b = 0x0A then some .operationFailed
  else if b = 0x0B then some .extError
  else none

/-- Decoded response payload, from enum ResponseData in protocol.rs. -/
inductive ResponseData
  | empty
  | crc (offset checksum : Nat)
  | select (offset checksum max_size : Nat)
deriving DecidableEq

/-- Whether a decoded payload has the Crc shape (what the if let patterns
in dfu_run match on). -/
def ResponseData.isCrc : ResponseData → Bool
  | .crc _ _ => true
  | _ => false

/-- Decoded response, from struct Response in protocol.rs. -/
structure Response where
  request : OpCode
  result : ResponseCode
  data : ResponseData
deriving DecidableEq

/-- Response::failed: the result code is not Success. -/
def Response.failed (r : Response) : Bool :=
  match r.result with
  | .success => false
  | _ => true

/-- Little endian 4 byte encoding of a u32 (u32::to_le_bytes); the model
takes a Nat and emits its low 32 bits as 4 bytes. -/
def le4 (n : Nat) : List Nat :=
  [n % 256, n / 256 % 256, n / 65536 % 256, n / 16777216 % 256]

/-- u32::from_le_bytes on 4 byte values. -/
def fromLE (a b c d : Nat) : Nat :=
  a + 256 * b + 65536 * c + 16777216 * d

/-- Kinds of malformed response wire data (the Err branches of
Response::try_from): bad header byte, unrecognized opcode byte,
unrecognized result code byte. -/
inductive ParseKind
  | badHeader
  | badOpcode
  | badResult
deriving DecidableEq

/-- Outcome of Response::try_from: a decoded response, an Err, or a Rust
panic from out of range slice indexing. -/
inductive PRes
  | pok (r : Response)
  | perr (k : ParseKind)
  | ppanic
deriving DecidableEq

/-- Response::try_from from protocol.rs. The source indexes bytes[0],
bytes[1], bytes[2] and slices bytes[3..7], bytes[7..11], bytes[11..15]
directly, so inputs shorter than the accessed range panic; that is modelled
by the ppanic outcome. Checks happen in source order: header byte, opcode
byte, result code byte, then the payload shape for successful CrcGet
(needs 11 bytes) and successful ObjectSelect (needs 15 bytes). -/
def parseResponse (bytes : List Nat) : PRes :=
  match bytes.head? with
  | none => .ppanic
  | some b0 =>
    if b0 ≠ 0x60 then .perr .badHeader
    else
      match bytes[1]? with
      | none => .ppanic
      | some b1 =>
        match OpCode.ofByte b1 with
        | none => .perr .badOpcode
        | some req =>
          match bytes[2]? with
          | none => .ppanic
          | some b2 =>
            match ResponseCode.ofByte b2 with
            | none => .perr .badResult
            | some result =>
              if result = .success ∧ req = .crcGet then
                if bytes.length < 11 then .ppanic
                else
                  .pok ⟨req, result,
                    .crc
                      (fromLE (bytes.getD 3 0) (bytes.getD 4 0)
                        (bytes.getD 5 0) (bytes.getD 6 0))
                      (fromLE (bytes.getD 7 0) (bytes.getD 8 0)
                        (bytes.getD 9 0) (bytes.getD 10 0))⟩
              else if result = .success ∧ req = .objectSelect then
                if bytes.length < 15 then .ppanic
                else
                  .pok ⟨req, result,
                    .select
                      (fromLE (bytes.getD 7 0) (bytes.getD 8 0)
                        (bytes.getD 9 0) (bytes.getD 10 0))
                      (fromLE (bytes.getD 11 0) (bytes.getD 12 0)
                        (bytes.getD 13 0) (bytes.getD 14 0))
                      (fromLE (bytes.getD 3 0) (bytes.getD 4 0)
                        (bytes.getD 5 0) (bytes.getD 6 0))⟩
              else .pok ⟨req, result, .empty⟩

/-- DFU requests issued by the client, from enum Request in protocol.rs. -/
inductive Request
  | create (obj : Object) (len : Nat)
  | setPrn (value : Nat)
  | getCrc
  | execute
  | select (obj : Object)
deriving DecidableEq

/-- Request::to_bytes from protocol.rs. -/
def Request.toBytes : Request → List Nat
  | .create obj len => 1 :: obj.toByte :: le4 len
  | .setPrn v => 2 :: le4 v
  | .getCrc => [3]
  | .execute => [4]
  | .select obj => [6, obj.toByte]

/-- One step of the CRC 32 table generator: shift right one bit, xor the
reflected IEEE 802.3 polynomial 0xEDB88320 when the low bit was set. -/
def crcTableStep (x : Nat) : Nat :=
  if x % 2 = 1 then (x / 2) ^^^ 0xEDB88320 else x / 2

/-- Entry of the byte indexed CRC 32 table: eight generator steps. -/
def crcTable (b : Nat) : Nat :=
  crcTableStep^[8] b

/-- One byte of reflected CRC 32 state update. -/
def crcStep (s b : Nat) : Nat :=
  (s / 256) ^^^ crcTable ((s ^^^ b) % 256)

/-- Fold the CRC state update over a buffer. -/
def crcFold (s : Nat) (buf : List Nat) : Nat :=
  buf.foldl crcStep s

/-- Function crc32 from protocol.rs. The crc32fast dependency (external to
this repository) is modelled per spec section 4.F: reflected IEEE 802.3
CRC 32 whose running state is the complement of the reported value, so that
new_with_initial(init) seeds the state with the complement of init and
finalize complements it back. -/
def crc32 (buf : List Nat) (init : Nat) : Nat :=
  crcFold (init ^^^ 0xFFFFFFFF) buf ^^^ 0xFFFFFFFF

/-- Observable session event: one request_ctrl attempt (with the encoded
request bytes it wrote) or one write_data call (with its payload). -/
inductive Event
  | ctrl (bytes : List Nat)
  | data (bytes : List Nat)
deriving DecidableEq

/-- Outcome of one request_ctrl attempt at the transport: the 500 ms
timeout (tokio Elapsed), some other transport error (opaque id), or a
response notification payload. -/
inductive CtrlOutcome
  | timeout
  | fail (e : Nat)
  | reply (bytes : List Nat)
deriving DecidableEq

/-- The DfuTransport trait (async mtu, write_data, request_ctrl) as a
deterministic device model; behavior is a function of the session history
so far, which subsumes any internal device state. writeData returns none
on success and an opaque error id on failure. -/
structure Transport where
  mtu : Nat
  respond : List Event → List Nat → CtrlOutcome
  writeData : List Event → List Nat → Option Nat

/-- Error results of the client (each constructor is one Err site in
protocol.rs): a propagated transport error, the message issued after three
timed out attempts (the Unresponsive failure of the spec), a malformed
response (Response::try_from Err), a non Success result code (the
ProtocolError of the spec, carrying the code), a failed usize to u32
conversion, and the three init packet failure messages. -/
inductive RunError
  | transport (e : Nat)
  | unresponsive
  | malformed (k : ParseKind)
  | protocolError (code : ResponseCode)
  | tryIntoErr
  | initLenMismatch
  | initCrcMismatch
  | initUnexpectedResponse
deriving DecidableEq

/-- Panic sites of the client: out of range indexing in Response::try_from,
the unimplemented macro for DFU resumption (the ResumeNotSupported failure
of the spec), the unimplemented macro for invalid CRC recovery (the
IntegrityError failure of the spec), slice chunks with size zero, and the
trailing unreachable macro of dfu_run. -/
inductive PanicKind
  | indexOutOfRange
  | resumeUnimplemented
  | crcRecoveryUnimplemented
  | chunksZeroSize
  | unreachableEnd
deriving DecidableEq

/-- Result of running a piece of the client: normal value, error return, or
panic. -/
inductive Outc (α : Type)
  | ok (a : α)
  | err (e : RunError)
  | panic (p : PanicKind)
deriving DecidableEq

/-- Sequencing with the question mark operator: errors and panics stop the
run, the history accumulated so far is kept. -/
def obind {α β : Type} (x : List Event × Outc α)
    (f : List Event → α → List Event × Outc β) : List Event × Outc β :=
  match x with
  | (h, .ok a) => f h a
  | (h, .err e) => (h, .err e)
  | (h, .panic p) => (h, .panic p)

/-- The retry loop body of fn request in protocol.rs, with explicit fuel
(the source uses for _retry in 0..3). Each attempt records one ctrl event;
a timeout retries, any other transport error propagates, a received reply
is decoded and a decoded non Success response becomes a protocol error. -/
def requestLoop (t : Transport) (reqBytes : List Nat) :
    Nat → List Event → List Event × Outc Response
  | 0, hist => (hist, .err .unresponsive)
  | fuel + 1, hist =>
    match t.respond hist reqBytes with
    | .timeout => requestLoop t reqBytes fuel (hist ++ [.ctrl reqBytes])
    | .fail e => (hist ++ [.ctrl reqBytes], .err (.transport e))
    | .reply bytes =>
      match parseResponse bytes with
      | .perr k => (hist ++ [.ctrl reqBytes], .err (.malformed k))
      | .ppanic => (hist ++ [.ctrl reqBytes], .panic .indexOutOfRange)
      | .pok r =>
        if r.failed then (hist ++ [.ctrl reqBytes], .err (.protocolError r.result))
        else (hist ++ [.ctrl reqBytes], .ok r)

/-- Fn request from protocol.rs: encode the request and run up to 3
attempts. -/
def requestF (t : Transport) (req : Request) (hist : List Event) :
    List Event × Outc Response :=
  requestLoop t req.toBytes 3 hist

/-- One transport.write_data call; records a data event. -/
def writeF (t : Transport) (b : List Nat) (hist : List Event) :
    List Event × Outc Unit :=
  match t.writeData hist b with
  | none => (hist ++ [.data b], .ok ())
  | some e => (hist ++ [.data b], .err (.transport e))

/-- The usize to u32 try_into conversion with the question mark operator. -/
def tryIntoU32 (hist : List Event) (n : Nat) : List Event × Outc Nat :=
  if n < 2 ^ 32 then (hist, .ok n) else (hist, .err .tryIntoErr)

/-- Fuel indexed helper for slice chunks; the fuel bounds the recursion
depth and the length of the list is always enough fuel when the chunk size
is positive. -/
def chunksOfAux {α : Type} : Nat → Nat → List α → List (List α)
  | 0, _, _ => []
  | _ + 1, _, [] => []
  | fuel + 1, n, a :: l => (a :: l).take n :: chunksOfAux fuel n ((a :: l).drop n)

/-- Rust slice chunks(n): consecutive pieces of n elements, last piece
possibly shorter, no pieces for the empty slice. Only used with 0 < n (the
source panics on n = 0 before ever calling this, modelled separately). -/
def chunksOf {α : Type} (n : Nat) (l : List α) : List (List α) :=
  chunksOfAux l.length n l

/-- The inner shard loop of dfu_run (for shard in chunk.chunks(mtu)):
write the shard, poll the CRC, and when the decoded payload has the Crc
shape compare the device checksum with crc32(shard, crc); a mismatch hits
the unimplemented macro, a match carries the device checksum forward. A
payload without the Crc shape leaves crc unchanged and continues. Returns
the running crc. -/
def shardLoop (t : Transport) :
    List (List Nat) → Nat → List Event → List Event × Outc Nat
  | [], crc, hist => (hist, .ok crc)
  | shard :: rest, crc, hist =>
    obind (writeF t shard hist) fun h _ =>
    obind (requestF t .getCrc h) fun h res =>
    match res.data with
    | .crc _o chk =>
      if chk ≠ crc32 shard crc then (h, .panic .crcRecoveryUnimplemented)
      else shardLoop t rest chk h
    | _ => shardLoop t rest crc h

/-- The outer chunk loop of dfu_run (for chunk in fw_pkt.chunks(max_size)):
convert the chunk length, create the Data object, run the shard loop over
mtu sized shards (chunk.chunks(mtu) panics when mtu is zero), then
Execute. -/
def chunkLoop (t : Transport) :
    List (List Nat) → Nat → List Event → List Event × Outc Unit
  | [], _crc, hist => (hist, .ok ())
  | chunk :: rest, crc, hist =>
    obind (tryIntoU32 hist chunk.length) fun h n =>
    obind (requestF t (.create .data n) h) fun h _ =>
    if t.mtu = 0 then (h, .panic .chunksZeroSize)
    else
      obind (shardLoop t (chunksOf t.mtu chunk) crc h) fun h crc2 =>
      obind (requestF t .execute h) fun h _ =>
      chunkLoop t rest crc2 h

/-- The Select(Data) phase of dfu_run: issue Select, and on a Select shaped
payload refuse resumption (unimplemented macro) when offset or checksum is
non zero, otherwise stream the firmware in max_size sized chunks starting
from crc 0 (fw_pkt.chunks(max_size) panics when max_size is zero). A
payload without the Select shape falls through to the unreachable macro. -/
def selectPhase (t : Transport) (fw : List Nat) (hist : List Event) :
    List Event × Outc Unit :=
  obind (requestF t (.select .data) hist) fun h res =>
  match res.data with
  | .select offset checksum maxSize =>
    if offset ≠ 0 ∨ checksum ≠ 0 then (h, .panic .resumeUnimplemented)
    else if maxSize = 0 then (h, .panic .chunksZeroSize)
    else chunkLoop t (chunksOf maxSize fw) 0 h
  | _ => (h, .panic .unreachableEnd)

/-- The init packet phase of dfu_run: convert the init length to u32,
Create(Command, len), one write_data call carrying the whole init packet,
GetCRC whose Crc shaped payload must report offset = len and checksum =
crc32(init, 0), then Execute. A GetCRC payload without the Crc shape is the
unexpected response error. -/
def initPhase (t : Transport) (init : List Nat) (hist : List Event) :
    List Event × Outc Unit :=
  obind (tryIntoU32 hist init.length) fun h n =>
  obind (requestF t (.create .command n) h) fun h _ =>
  obind (writeF t init h) fun h _ =>
  obind (requestF t .getCrc h) fun h res =>
  match res.data with
  | .crc offset checksum =>
    if offset ≠ init.length then (h, .err .initLenMismatch)
    else if checksum ≠ crc32 init 0 then (h, .err .initCrcMismatch)
    else obind (requestF t .execute h) fun h _ => (h, .ok ())
  | _ => (h, .err .initUnexpectedResponse)

/-- Pub async fn dfu_run from protocol.rs: SetPRN(0) first, then the init
packet transaction, then Select(Data) and the firmware streaming loop. -/
def dfu_run (t : Transport) (init fw : List Nat) : List Event × Outc Unit :=
  obind (requestF t (.setPrn 0) []) fun h _ =>
  obind (initPhase t init h) fun h _ =>
  selectPhase t fw h

/-- Bytes written by data events since the most recent Select request (or
since the start when none), scanning the history from its end: the data
buffer a device receiving this session holds for the current object
sequence. -/
def curBufGo : List Event → List Nat
  | [] => []
  | .ctrl r :: rest => if r.head? = some 6 then [] else curBufGo rest
  | .data b :: rest => curBufGo rest ++ b

/-- Data bytes of the current phase of a history (see curBufGo). -/
def curBuf (hist : List Event) : List Nat :=
  curBufGo hist.reverse

/-- A mock device that always answers Success with truthful offsets and
cumulative CRCs: SetPRN, Create and Execute get empty Success replies,
GetCRC reports the length and CRC 32 of the bytes received for the current
phase, and Select reports the advertised object size with zero offset and
checksum. Writes always succeed and the transport advertises mtu m. -/
def truthfulDev (m maxSize : Nat) : Transport where
  mtu := m
  respond hist req :=
    match req with
    | 2 :: _ => .reply [0x60, 2, 1]
    | 1 :: _ => .reply [0x60, 1, 1]
    | [3] => .reply ([0x60, 3, 1] ++ le4 (curBuf hist).length ++ le4 (crc32 (curBuf hist) 0))
    | [4] => .reply [0x60, 4, 1]
    | 6 :: _ => .reply ([0x60, 6, 1] ++ le4 maxSize ++ le4 0 ++ le4 0)
    | _ => .timeout
  writeData _ _ := none

/-- Whether a history already contains a Select request (first byte 6). -/
def hasSelect (hist : List Event) : Bool :=
  hist.any fun e => match e with | .ctrl (6 :: _) => true | _ => false

/-- A device like truthfulDev except that after Select it reports a GetCRC
offset 9 bytes beyond the bytes actually received, while keeping the
checksum truthful. -/
def wrongOffDev (m maxSize : Nat) : Transport where
  mtu := m
  respond hist req :=
    match req with
    | 2 :: _ => .reply [0x60, 2, 1]
    | 1 :: _ => .reply [0x60, 1, 1]
    | [3] => .reply ([0x60, 3, 1] ++
        le4 (if hasSelect hist then (curBuf hist).length + 9 else (curBuf hist).length) ++
        le4 (crc32 (curBuf hist) 0))
    | [4] => .reply [0x60, 4, 1]
    | 6 :: _ => .reply ([0x60, 6, 1] ++ le4 maxSize ++ le4 0 ++ le4 0)
    | _ => .timeout
  writeData _ _ := none

/-- Events of one shard iteration against a device that always replies:
the data write then the GetCRC request. -/
def shardTrace (shards : List (List Nat)) : List Event :=
  (shards.map fun s => [Event.data s, Event.ctrl [3]]).flatten

/-- Events of the streaming loop against a device that always replies:
per chunk a Create(Data, len), the shard pairs, and an Execute. -/
def chunkTrace (m : Nat) (chunks : List (List Nat)) : List Event :=
  (chunks.map fun c =>
    Event.ctrl (1 :: 2 :: le4 c.length) :: (shardTrace (chunksOf m c) ++ [Event.ctrl [4]])).flatten

/-- The full session trace the claim expects on the happy path: SetPRN(0),
Create(Command, len), the single init data write, GetCRC, Execute,
Select(Data), then the streaming loop trace. -/
def expectedTrace (init fw : List Nat) (m maxSize : Nat) : List Event :=
  [.ctrl (2 :: le4 0), .ctrl (1 :: 1 :: le4 init.length), .data init,
   .ctrl [3], .ctrl [4], .ctrl [6, 2]] ++ chunkTrace m (chunksOf maxSize fw)

/-! ## CRC 32 lemmas -/

theorem xor_mask_cancel (x : Nat) : (x ^^^ 0xFFFFFFFF) ^^^ 0xFFFFFFFF = x := by
  rw [Nat.xor_assoc, Nat.xor_self, Nat.xor_zero]

theorem crcFold_append (s : Nat) (b1 b2 : List Nat) :
    crcFold s (b1 ++ b2) = crcFold (crcFold s b1) b2 := by
  simp [crcFold, List.foldl_append]

/-- The continuation property of the CRC implementation, with an arbitrary
initial value. -/
theorem crc32_append_general (b1 b2 : List Nat) (init : Nat) :
    crc32 (b1 ++ b2) init = crc32 b2 (crc32 b1 init) := by
  simp [crc32, xor_mask_cancel, crcFold_append]

theorem crc32_nil (init : Nat) : crc32 [] init = init := by
  simp [crc32, crcFold, xor_mask_cancel]

theorem crcTableStep_lt (x : Nat) (hx : x < 2 ^ 32) : crcTableStep x < 2 ^ 32 := by
  unfold crcTableStep
  split
  · exact Nat.xor_lt_two_pow (by omega) (by norm_num)
  · omega

theorem crcTable_lt (b : Nat) (hb : b < 2 ^ 32) : crcTable b < 2 ^ 32 := by
  unfold crcTable
  have h : ∀ k x, x < 2 ^ 32 → crcTableStep^[k] x < 2 ^ 32 := by
    intro k
    induction k with
    | zero => intro x hx; simpa using hx
    | succ k ih =>
      intro x hx
      rw [Function.iterate_succ_apply]
      exact ih _ (crcTableStep_lt x hx)
  exact h 8 b hb

theorem crcStep_lt (s b : Nat) (hs : s < 2 ^ 32) : crcStep s b < 2 ^ 32 := by
  unfold crcStep
  exact Nat.xor_lt_two_pow (by omega) (crcTable_lt _ (by omega))

theorem crcFold_lt (buf : List Nat) (s : Nat) (hs : s < 2 ^ 32) :
    crcFold s buf < 2 ^ 32 := by
  induction buf generalizing s with
  | nil => simpa [crcFold] using hs
  | cons b rest ih =>
    simpa [crcFold] using ih (crcStep s b) (crcStep_lt s b hs)

/-- The reported CRC value always fits in 32 bits when the initial value
does. -/
theorem crc32_lt (buf : List Nat) (init : Nat) (h : init < 2 ^ 32) :
    crc32 buf init < 2 ^ 32 := by
  unfold crc32
  exact Nat.xor_lt_two_pow (crcFold_lt buf _ (Nat.xor_lt_two_pow h (by norm_num))) (by norm_num)

/-- Decoding the little endian encoding of n gives n modulo 2 ^ 32. -/
theorem fromLE_le4 (n : Nat) :
    fromLE (n % 256) (n / 256 % 256) (n / 65536 % 256) (n / 16777216 % 256) = n % 2 ^ 32 := by
  unfold fromLE
  omega

/-! ## Chunking lemmas -/

theorem chunksOfAux_congr {α : Type} (n : Nat) (hn : 0 < n) :
    ∀ f1 f2 (l : List α), l.length ≤ f1 → l.length ≤ f2 →
      chunksOfAux f1 n l = chunksOfAux f2 n l := by
  intro f1
  induction f1 with
  | zero =>
    intro f2 l h1 _
    have : l = [] := List.length_eq_zero.mp (Nat.le_zero.mp h1)
    subst this
    cases f2 <;> rfl
  | succ f1 ih =>
    intro f2 l h1 h2
    cases l with
    | nil => cases f2 <;> rfl
    | cons a l' =>
      cases f2 with
      | zero => simp at h2
      | succ f2 =>
        show (a :: l').take n :: chunksOfAux f1 n ((a :: l').drop n)
            = (a :: l').take n :: chunksOfAux f2 n ((a :: l').drop n)
        have hdrop : ((a :: l').drop n).length ≤ l'.length := by
          simp only [List.length_drop, List.length_cons]
          omega
        have hl1 : l'.length ≤ f1 := by simpa using h1
        have hl2 : l'.length ≤ f2 := by simpa using h2
        rw [ih f2 _ (hdrop.trans hl1) (hdrop.trans hl2)]

/-- The step equation of chunksOf for a non empty list and positive size. -/
theorem chunksOf_cons {α : Type} (n : Nat) (hn : 0 < n) (a : α) (l : List α) :
    chunksOf n (a :: l) = (a :: l).take n :: chunksOf n ((a :: l).drop n) := by
  show (a :: l).take n :: chunksOfAux l.length n ((a :: l).drop n) = _
  have hdrop : ((a :: l).drop n).length ≤ l.length := by
    simp only [List.length_drop, List.length_cons]
    omega
  rw [chunksOfAux_congr n hn l.length ((a :: l).drop n).length _ hdrop le_rfl]
  rfl

theorem chunksOf_flatten_aux {α : Type} (n : Nat) (hn : 0 < n) :
    ∀ fuel (l : List α), l.length ≤ fuel → (chunksOfAux fuel n l).flatten = l := by
  intro fuel
  induction fuel with
  | zero =>
    intro l h1
    have : l = [] := List.length_eq_zero.mp (Nat.le_zero.mp h1)
    subst this
    rfl
  | succ fuel ih =>
    intro l h1
    cases l with
    | nil => rfl
    | cons a l' =>
      show ((a :: l').take n :: chunksOfAux fuel n ((a :: l').drop n)).flatten = _
      have hdrop : ((a :: l').drop n).length ≤ fuel := by
        simp only [List.length_drop, List.length_cons]
        have : l'.length ≤ fuel := by simpa using h1
        omega
      simp only [List.flatten_cons, ih _ hdrop, List.take_append_drop]

/-- Concatenating the chunks of a list gives the list back. -/
theorem chunksOf_flatten {α : Type} (n : Nat) (hn : 0 < n) (l : List α) :
    (chunksOf n l).flatten = l :=
  chunksOf_flatten_aux n hn l.length l le_rfl

theorem chunksOf_mem_le_aux {α : Type} (n : Nat) :
    ∀ fuel (l : List α) c, c ∈ chunksOfAux fuel n l → c.length ≤ n := by
  intro fuel
  induction fuel with
  | zero => intro l c hc; simp [chunksOfAux] at hc
  | succ fuel ih =>
    intro l c hc
    cases l with
    | nil => simp [chunksOfAux] at hc
    | cons a l' =>
      rcases List.mem_cons.mp hc with h | h
      · subst h
        exact List.length_take_le n (a :: l')
      · exact ih _ _ h

/-- Every chunk has at most the requested size. -/
theorem chunksOf_mem_le {α : Type} (n : Nat) (l : List α) (c : List α)
    (hc : c ∈ chunksOf n l) : c.length ≤ n :=
  chunksOf_mem_le_aux n l.length l c hc

/-! ## History buffer lemmas -/

theorem curBuf_append_data (h : List Event) (b : List Nat) :
    curBuf (h ++ [.data b]) = curBuf h ++ b := by
  simp [curBuf, List.reverse_append, curBufGo]

theorem curBuf_append_ctrl (h : List Event) (r : List Nat) (hr : r.head? ≠ some 6) :
    curBuf (h ++ [.ctrl r]) = curBuf h := by
  simp [curBuf, List.reverse_append, curBufGo, hr]

theorem curBuf_append_select (h : List Event) (r : List Nat) (hr : r.head? = some 6) :
    curBuf (h ++ [.ctrl r]) = [] := by
  simp [curBuf, List.reverse_append, curBufGo, hr]

/-! ## Truthful device exchanges -/

theorem truthful_setPrn (m ms v : Nat) (hist : List Event) :
    requestF (truthfulDev m ms) (.setPrn v) hist =
      (hist ++ [.ctrl (2 :: le4 v)], .ok ⟨.receiptNotifSet, .success, .empty⟩) := rfl

theorem truthful_create (m ms n : Nat) (obj : Object) (hist : List Event) :
    requestF (truthfulDev m ms) (.create obj n) hist =
      (hist ++ [.ctrl (1 :: obj.toByte :: le4 n)], .ok ⟨.objectCreate, .success, .empty⟩) := rfl

theorem truthful_execute (m ms : Nat) (hist : List Event) :
    requestF (truthfulDev m ms) .execute hist =
      (hist ++ [.ctrl [4]], .ok ⟨.objectExecute, .success, .empty⟩) := rfl

theorem truthful_getCrc (m ms : Nat) (hist : List Event) :
    requestF (truthfulDev m ms) .getCrc hist =
      (hist ++ [.ctrl [3]],
        .ok ⟨.crcGet, .success,
          .crc ((curBuf hist).length % 2 ^ 32) (crc32 (curBuf hist) 0)⟩) := by
  have hc : crc32 (curBuf hist) 0 % 2 ^ 32 = crc32 (curBuf hist) 0 :=
    Nat.mod_eq_of_lt (crc32_lt _ _ (by norm_num))
  simp [requestF, requestLoop, truthfulDev, Request.toBytes, parseResponse, le4,
    OpCode.ofByte, ResponseCode.ofByte, Response.failed, fromLE_le4, hc]
  simpa using crc32_lt (curBuf hist) 0 (by norm_num)

theorem truthful_select (m ms : Nat) (obj : Object) (hist : List Event) :
    requestF (truthfulDev m ms) (.select obj) hist =
      (hist ++ [.ctrl [6, obj.toByte]],
        .ok ⟨.objectSelect, .success, .select 0 0 (ms % 2 ^ 32)⟩) := by
  simp [requestF, requestLoop, truthfulDev, Request.toBytes, parseResponse, le4,
    OpCode.ofByte, ResponseCode.ofByte, Response.failed, fromLE_le4]
  decide

theorem writeF_truthful (m ms : Nat) (b : List Nat) (hist : List Event) :
    writeF (truthfulDev m ms) b hist = (hist ++ [.data b], .ok ()) := rfl

theorem curBuf_shardTrace (h : List Event) (shards : List (List Nat)) :
    curBuf (h ++ shardTrace shards) = curBuf h ++ shards.flatten := by
  induction shards generalizing h with
  | nil => simp [shardTrace]
  | cons s rest ih =>
    have hs : shardTrace (s :: rest) = [Event.data s, Event.ctrl [3]] ++ shardTrace rest := by
      simp [shardTrace]
    rw [hs, show h ++ ([Event.data s, Event.ctrl [3]] ++ shardTrace rest)
        = ((h ++ [Event.data s]) ++ [Event.ctrl [3]]) ++ shardTrace rest from by simp,
      ih, curBuf_append_ctrl _ _ (by decide), curBuf_append_data]
    simp

/-- Running the shard loop against the truthful device from a history whose
current phase bytes give the running crc: every shard is written then
verified, the device checksum always matches, and the loop ends with the
crc of all bytes of the phase. -/
theorem shardLoop_truthful (m ms : Nat) :
    ∀ (shards : List (List Nat)) (hist : List Event) (crcv : Nat),
      crcv = crc32 (curBuf hist) 0 →
      shardLoop (truthfulDev m ms) shards crcv hist =
        (hist ++ shardTrace shards, .ok (crc32 (curBuf hist ++ shards.flatten) 0)) := by
  intro shards
  induction shards with
  | nil =>
    intro hist crcv hcrc
    simp [shardLoop, shardTrace, hcrc]
  | cons s rest ih =>
    intro hist crcv hcrc
    have hbuf1 : curBuf (hist ++ [Event.data s]) = curBuf hist ++ s := curBuf_append_data hist s
    have hbuf2 : curBuf ((hist ++ [Event.data s]) ++ [Event.ctrl [3]]) = curBuf hist ++ s := by
      rw [curBuf_append_ctrl _ _ (by decide), hbuf1]
    simp only [shardLoop, writeF_truthful, obind]
    rw [truthful_getCrc m ms (hist ++ [Event.data s])]
    simp only [obind, hbuf1]
    rw [hcrc, ← crc32_append_general]
    rw [if_neg (by simp)]
    rw [ih ((hist ++ [Event.data s]) ++ [Event.ctrl [3]]) _ (by rw [hbuf2])]
    rw [hbuf2]
    have ht : shardTrace (s :: rest) = [Event.data s, Event.ctrl [3]] ++ shardTrace rest := by
      simp [shardTrace]
    rw [ht]
    simp

/-- Running the chunk loop against the truthful device: every chunk is
created, streamed shard by shard, verified and executed. -/
theorem chunkLoop_truthful (m ms : Nat) (hm : 0 < m) :
    ∀ (cs : List (List Nat)) (hist : List Event) (crcv : Nat),
      crcv = crc32 (curBuf hist) 0 →
      (∀ c ∈ cs, c.length < 2 ^ 32) →
      chunkLoop (truthfulDev m ms) cs crcv hist = (hist ++ chunkTrace m cs, .ok ()) := by
  intro cs
  induction cs with
  | nil =>
    intro hist crcv _ _
    simp [chunkLoop, chunkTrace]
  | cons c rest ih =>
    intro hist crcv hcrc hlen
    have hc : c.length < 2 ^ 32 := hlen c (by simp)
    simp only [chunkLoop, tryIntoU32, if_pos hc, obind]
    rw [truthful_create]
    simp only [obind, show (truthfulDev m ms).mtu = m from rfl]
    rw [if_neg (by omega : ¬ m = 0)]
    have hbuf1 : curBuf (hist ++ [Event.ctrl (1 :: Object.toByte .data :: le4 c.length)])
        = curBuf hist := curBuf_append_ctrl _ _ (by simp [Object.toByte, le4])
    rw [shardLoop_truthful m ms _ _ _ (by rw [hbuf1, hcrc])]
    simp only [obind]
    rw [truthful_execute]
    simp only [obind]
    set h2 := hist ++ [Event.ctrl (1 :: Object.toByte .data :: le4 c.length)] with hh2
    have hbuf2 : curBuf ((h2 ++ shardTrace (chunksOf m c)) ++ [Event.ctrl [4]])
        = curBuf hist ++ c := by
      rw [curBuf_append_ctrl _ _ (by decide), curBuf_shardTrace, hbuf1,
        chunksOf_flatten m hm]
    rw [ih _ _ (by rw [hbuf2, hbuf1, chunksOf_flatten m hm]) (fun x hx => hlen x (by simp [hx]))]
    have ht : chunkTrace m (c :: rest) = Event.ctrl (1 :: 2 :: le4 c.length)
        :: (shardTrace (chunksOf m c) ++ [Event.ctrl [4]]) ++ chunkTrace m rest := by
      simp [chunkTrace]
    rw [ht]
    simp [hh2, Object.toByte]

/-- The init packet phase against the truthful device: one Create(Command),
one data write carrying the whole init packet, one GetCRC (whose truthful
offset and checksum pass both checks), one Execute. -/
theorem initPhase_truthful (m ms : Nat) (init : List Nat) (hist : List Event)
    (hinit : init.length < 2 ^ 32) (hbuf : curBuf hist = []) :
    initPhase (truthfulDev m ms) init hist =
      (hist ++ [.ctrl (1 :: 1 :: le4 init.length), .data init, .ctrl [3], .ctrl [4]],
        .ok ()) := by
  unfold initPhase
  simp only [tryIntoU32, if_pos hinit, obind]
  rw [truthful_create]
  simp only [obind]
  rw [writeF_truthful]
  simp only [obind]
  rw [truthful_getCrc]
  simp only [obind]
  have hcb : curBuf ((hist ++ [Event.ctrl (1 :: Object.toByte .command :: le4 init.length)])
      ++ [Event.data init]) = init := by
    rw [curBuf_append_data, curBuf_append_ctrl _ _ (by simp [Object.toByte, le4]), hbuf]
    simp
  rw [hcb]
  rw [if_neg (fun hne => hne (Nat.mod_eq_of_lt hinit))]
  rw [if_neg (by simp)]
  rw [truthful_execute]
  simp only [obind]
  simp [Object.toByte]

/-- The select and streaming phase against the truthful device. -/
theorem selectPhase_truthful (m ms : Nat) (fw : List Nat) (hist : List Event)
    (hm : 0 < m) (hms : 0 < ms) (hms32 : ms < 2 ^ 32) :
    selectPhase (truthfulDev m ms) fw hist =
      (hist ++ [.ctrl [6, 2]] ++ chunkTrace m (chunksOf ms fw), .ok ()) := by
  unfold selectPhase
  rw [truthful_select]
  simp only [obind]
  rw [if_neg (by simp)]
  rw [Nat.mod_eq_of_lt hms32]
  rw [if_neg (by omega : ¬ ms = 0)]
  rw [chunkLoop_truthful m ms hm _ _ _
    (by rw [curBuf_append_select _ _ (by simp [Object.toByte]), crc32_nil])
    (fun c hc => lt_of_le_of_lt (chunksOf_mem_le ms fw c hc) hms32)]
  simp [Object.toByte]

/-- A full session against the truthful device terminates Ok with exactly
the expected trace. -/
theorem dfu_run_truthful (init fw : List Nat) (m ms : Nat) (hm : 0 < m) (hms : 0 < ms)
    (hinit : init.length < 2 ^ 32) (hms32 : ms < 2 ^ 32) :
    dfu_run (truthfulDev m ms) init fw = (expectedTrace init fw m ms, .ok ()) := by
  unfold dfu_run
  rw [truthful_setPrn]
  simp only [obind, List.nil_append]
  rw [initPhase_truthful m ms init _ hinit (by simp [curBuf, curBufGo, le4])]
  simp only [obind]
  rw [selectPhase_truthful m ms fw _ hm hms hms32]
  simp [expectedTrace]

/-! ## Request primitive step lemmas -/

theorem requestLoop_zero (t : Transport) (b : List Nat) (hist : List Event) :
    requestLoop t b 0 hist = (hist, .err .unresponsive) := rfl

theorem requestLoop_timeout (t : Transport) (b : List Nat) (fuel : Nat) (hist : List Event)
    (h : t.respond hist b = .timeout) :
    requestLoop t b (fuel + 1) hist = requestLoop t b fuel (hist ++ [.ctrl b]) := by
  conv_lhs => unfold requestLoop
  rw [h]

theorem requestLoop_fail (t : Transport) (b : List Nat) (fuel : Nat) (hist : List Event)
    (e : Nat) (h : t.respond hist b = .fail e) :
    requestLoop t b (fuel + 1) hist = (hist ++ [.ctrl b], .err (.transport e)) := by
  unfold requestLoop
  rw [h]

theorem requestLoop_reply (t : Transport) (b : List Nat) (fuel : Nat) (hist : List Event)
    (bytes : List Nat) (h : t.respond hist b = .reply bytes) :
    requestLoop t b (fuel + 1) hist =
      (match parseResponse bytes with
       | .perr k => (hist ++ [.ctrl b], .err (.malformed k))
       | .ppanic => (hist ++ [.ctrl b], .panic .indexOutOfRange)
       | .pok r =>
         if r.failed then (hist ++ [.ctrl b], .err (.protocolError r.result))
         else (hist ++ [.ctrl b], .ok r)) := by
  unfold requestLoop
  rw [h]

theorem requestF_as_loop (t : Transport) (req : Request) (hist : List Event) :
    requestF t req hist = requestLoop t req.toBytes (2 + 1) hist := rfl

theorem requestLoop_length (t : Transport) (b : List Nat) :
    ∀ (fuel : Nat) (hist : List Event),
      (requestLoop t b fuel hist).1.length ≤ hist.length + fuel := by
  intro fuel
  induction fuel with
  | zero => intro hist; simp [requestLoop_zero]
  | succ fuel ih =>
    intro hist
    rcases h : t.respond hist b with _ | e | bytes
    · rw [requestLoop_timeout t b fuel hist h]
      have := ih (hist ++ [.ctrl b])
      simp only [List.length_append, List.length_cons, List.length_nil] at this
      omega
    · rw [requestLoop_fail t b fuel hist e h]
      simp only [List.length_append, List.length_cons, List.length_nil]
      omega
    · rw [requestLoop_reply t b fuel hist bytes h]
      rcases parseResponse bytes with r | k | _
      · by_cases hf : r.failed
        · simp only [hf, if_true, List.length_append, List.length_cons, List.length_nil]
          omega
        · simp only [hf, Bool.false_eq_true, if_false, List.length_append,
            List.length_cons, List.length_nil]
          omega
      · simp only [List.length_append, List.length_cons, List.length_nil]
        omega
      · simp only [List.length_append, List.length_cons, List.length_nil]
        omega

/-! ## Claim theorems -/

/-- C1: for every init packet and firmware buffer, a run of the DFU client
against a transport whose every control request returns Success with
truthful offsets and cumulative CRCs (and a positive mtu and object size
fitting in u32) terminates with Ok and issues exactly the claimed request
sequence: SetPRN(0) first, Create(Command, len), the data write(s) of the
init packet, GetCRC, Execute, Select(Data), then per firmware chunk a
Create(Data, len), a (write_data, GetCRC) pair per shard, and Execute. -/
theorem c1_happy_trace (init fw : List Nat) (m maxSize : Nat) (hm : 0 < m)
    (hms : 0 < maxSize) (hinit : init.length < 2 ^ 32) (hms32 : maxSize < 2 ^ 32) :
    dfu_run (truthfulDev m maxSize) init fw = (expectedTrace init fw m maxSize, .ok ()) :=
  dfu_run_truthful init fw m maxSize hm hms hinit hms32

/-- Witness for C1 at the concrete scenario of spec section 8 (mtu 4,
object size 8, 3 byte init packet, 10 byte firmware). -/
theorem c1_happy_trace_witness :
    0 < 4 ∧ 0 < 8 ∧
      dfu_run (truthfulDev 4 8) [0xAA, 0xBB, 0xCC] [0, 1, 2, 3, 4, 5, 6, 7, 8, 9]
        = (expectedTrace [0xAA, 0xBB, 0xCC] [0, 1, 2, 3, 4, 5, 6, 7, 8, 9] 4 8, .ok ()) :=
  ⟨by decide, by decide,
    c1_happy_trace [0xAA, 0xBB, 0xCC] [0, 1, 2, 3, 4, 5, 6, 7, 8, 9] 4 8
      (by decide) (by decide) (by decide) (by decide)⟩

/-- C8: the CRC implementation satisfies the continuation property
CRC32(b1 concat b2, 0) = CRC32(b2, CRC32(b1, 0)), and folding CRC32 over
any partition of a buffer into consecutive shards starting from 0 equals
the CRC32 of the whole buffer. -/
theorem c8_crc_continuation :
    (∀ b1 b2 : List Nat, crc32 (b1 ++ b2) 0 = crc32 b2 (crc32 b1 0)) ∧
    (∀ shards : List (List Nat),
      shards.foldl (fun acc s => crc32 s acc) 0 = crc32 shards.flatten 0) := by
  constructor
  · intro b1 b2
    exact crc32_append_general b1 b2 0
  · have hgen : ∀ (shards : List (List Nat)) (a : Nat),
        shards.foldl (fun acc s => crc32 s acc) a = crc32 shards.flatten a := by
      intro shards
      induction shards with
      | nil => intro a; simp [crc32_nil]
      | cons s rest ih =>
        intro a
        simp only [List.foldl_cons, List.flatten_cons, ih, crc32_append_general]
    intro shards
    exact hgen shards 0

/-- A device that never notifies: every control request times out. -/
def silentDev : Transport where
  mtu := 244
  respond _ _ := .timeout
  writeData _ _ := none

/-- C3: the request primitive makes at most 3 attempts; a non timeout
transport error at any attempt is propagated immediately with no further
attempt; after 3 consecutive timeouts the primitive fails with the
Unresponsive error having made exactly 3 attempts. -/
theorem c3_retry (t : Transport) (req : Request) (hist : List Event) :
    ((requestF t req hist).1.length ≤ hist.length + 3) ∧
    (∀ e, t.respond hist req.toBytes = .fail e →
      requestF t req hist = (hist ++ [.ctrl req.toBytes], .err (.transport e))) ∧
    (t.respond hist req.toBytes = .timeout →
      (∀ e, t.respond (hist ++ [.ctrl req.toBytes]) req.toBytes = .fail e →
        requestF t req hist =
          (hist ++ [.ctrl req.toBytes, .ctrl req.toBytes], .err (.transport e))) ∧
      (t.respond (hist ++ [.ctrl req.toBytes]) req.toBytes = .timeout →
        (∀ e, t.respond (hist ++ [.ctrl req.toBytes, .ctrl req.toBytes]) req.toBytes
            = .fail e →
          requestF t req hist =
            (hist ++ [.ctrl req.toBytes, .ctrl req.toBytes, .ctrl req.toBytes],
              .err (.transport e))) ∧
        (t.respond (hist ++ [.ctrl req.toBytes, .ctrl req.toBytes]) req.toBytes
            = .timeout →
          requestF t req hist =
            (hist ++ [.ctrl req.toBytes, .ctrl req.toBytes, .ctrl req.toBytes],
              .err .unresponsive)))) := by
  refine ⟨requestLoop_length t req.toBytes 3 hist, ?_, ?_⟩
  · intro e h1
    rw [requestF_as_loop, requestLoop_fail _ _ _ _ _ h1]
  · intro h1
    refine ⟨?_, ?_⟩
    · intro e h2
      rw [requestF_as_loop, requestLoop_timeout _ _ _ _ h1,
        show (2 : Nat) = 1 + 1 from rfl, requestLoop_fail _ _ _ _ _ h2]
      simp
    · intro h2
      refine ⟨?_, ?_⟩
      · intro e h3
        rw [requestF_as_loop, requestLoop_timeout _ _ _ _ h1,
          show (2 : Nat) = 1 + 1 from rfl, requestLoop_timeout _ _ _ _ h2,
          show (1 : Nat) = 0 + 1 from rfl, requestLoop_fail _ _ _ _ _ (by simpa using h3)]
        simp
      · intro h3
        rw [requestF_as_loop, requestLoop_timeout _ _ _ _ h1,
          show (2 : Nat) = 1 + 1 from rfl, requestLoop_timeout _ _ _ _ h2,
          show (1 : Nat) = 0 + 1 from rfl, requestLoop_timeout _ _ _ _ (by simpa using h3),
          requestLoop_zero]
        simp

/-- Witness for C3: against the device that never notifies, a SetPRN
request fails Unresponsive after exactly 3 attempts. -/
theorem c3_retry_witness :
    requestF silentDev (.setPrn 0) [] =
      ([] ++ [.ctrl (Request.setPrn 0).toBytes, .ctrl (Request.setPrn 0).toBytes,
        .ctrl (Request.setPrn 0).toBytes], .err .unresponsive) :=
  (((c3_retry silentDev (.setPrn 0) []).2.2 rfl).2 rfl).2 rfl

/-! ## Protocol error provenance -/

/-- A history ends with a control attempt whose reply decoded to a non
Success response carrying result code c. -/
def protoEnds (t : Transport) (h : List Event) (c : ResponseCode) : Prop :=
  ∃ pre reqb bytes r, h = pre ++ [Event.ctrl reqb] ∧ t.respond pre reqb = .reply bytes ∧
    parseResponse bytes = .pok r ∧ r.result = c ∧ r.failed = true

/-- A run fragment is proto safe when a protocol error result implies its
history ends with the very exchange that produced the error. -/
def ProtoSafe {α : Type} (t : Transport) (x : List Event × Outc α) : Prop :=
  ∀ c, x.2 = .err (.protocolError c) → protoEnds t x.1 c

theorem protoSafe_obind {α β : Type} (t : Transport) (x : List Event × Outc α)
    (f : List Event → α → List Event × Outc β)
    (hx : ProtoSafe t x) (hf : ∀ h a, ProtoSafe t (f h a)) :
    ProtoSafe t (obind x f) := by
  rcases x with ⟨h, o⟩
  cases o with
  | ok a => exact hf h a
  | err e =>
    intro c hc
    simp only [obind, Outc.err.injEq] at hc ⊢
    exact hx c (by simp [hc])
  | panic p =>
    intro c hc
    simp only [obind] at hc
    simp at hc

theorem protoEnds_requestLoop (t : Transport) (b : List Nat) :
    ∀ (fuel : Nat) (hist h : List Event) (c : ResponseCode),
      requestLoop t b fuel hist = (h, .err (.protocolError c)) → protoEnds t h c := by
  intro fuel
  induction fuel with
  | zero =>
    intro hist h c heq
    rw [requestLoop_zero] at heq
    simp at heq
  | succ fuel ih =>
    intro hist h c heq
    rcases hresp : t.respond hist b with _ | e | bytes
    · rw [requestLoop_timeout _ _ _ _ hresp] at heq
      exact ih _ _ _ heq
    · rw [requestLoop_fail _ _ _ _ _ hresp] at heq
      simp at heq
    · rw [requestLoop_reply _ _ _ _ _ hresp] at heq
      split at heq
      · simp at heq
      · simp at heq
      · rename_i r hp
        split at heq
        · rename_i hf
          simp only [Prod.mk.injEq, Outc.err.injEq, RunError.protocolError.injEq] at heq
          exact ⟨hist, b, bytes, r, heq.1.symm, hresp, hp, heq.2, hf⟩
        · simp at heq

theorem protoSafe_requestF (t : Transport) (req : Request) (hist : List Event) :
    ProtoSafe t (requestF t req hist) := by
  intro c hc
  refine protoEnds_requestLoop t req.toBytes 3 hist (requestF t req hist).1 c ?_
  rw [← hc]
  exact Prod.mk.eta.symm

theorem protoSafe_writeF (t : Transport) (b : List Nat) (hist : List Event) :
    ProtoSafe t (writeF t b hist) := by
  intro c hc
  unfold writeF at hc
  rcases hw : t.writeData hist b with _ | e <;> rw [hw] at hc <;> simp at hc

theorem protoSafe_tryInto (t : Transport) (hist : List Event) (n : Nat) :
    ProtoSafe t (tryIntoU32 hist n) := by
  intro c hc
  unfold tryIntoU32 at hc
  split at hc <;> simp at hc

theorem protoSafe_shardLoop (t : Transport) :
    ∀ (shards : List (List Nat)) (crc : Nat) (hist : List Event),
      ProtoSafe t (shardLoop t shards crc hist) := by
  intro shards
  induction shards with
  | nil =>
    intro crc hist c hc
    simp [shardLoop] at hc
  | cons s rest ih =>
    intro crc hist
    unfold shardLoop
    refine protoSafe_obind t _ _ (protoSafe_writeF t s hist) ?_
    intro h _
    refine protoSafe_obind t _ _ (protoSafe_requestF t .getCrc h) ?_
    intro h2 res
    split
    · split
      · intro c hc
        simp at hc
      · exact ih _ h2
    · exact ih crc h2

theorem protoSafe_chunkLoop (t : Transport) :
    ∀ (cs : List (List Nat)) (crc : Nat) (hist : List Event),
      ProtoSafe t (chunkLoop t cs crc hist) := by
  intro cs
  induction cs with
  | nil =>
    intro crc hist c hc
    simp [chunkLoop] at hc
  | cons ch rest ih =>
    intro crc hist
    unfold chunkLoop
    refine protoSafe_obind t _ _ (protoSafe_tryInto t hist ch.length) ?_
    intro h n
    refine protoSafe_obind t _ _ (protoSafe_requestF t (.create .data n) h) ?_
    intro h2 _
    by_cases hm : t.mtu = 0
    · rw [if_pos hm]
      intro c hc
      simp at hc
    · rw [if_neg hm]
      refine protoSafe_obind t _ _ (protoSafe_shardLoop t _ crc h2) ?_
      intro h3 crc2
      refine protoSafe_obind t _ _ (protoSafe_requestF t .execute h3) ?_
      intro h4 _
      exact ih crc2 h4

theorem protoSafe_selectPhase (t : Transport) (fw : List Nat) (hist : List Event) :
    ProtoSafe t (selectPhase t fw hist) := by
  unfold selectPhase
  refine protoSafe_obind t _ _ (protoSafe_requestF t (.select .data) hist) ?_
  intro h res
  split
  · split
    · intro c hc
      simp at hc
    · split
      · intro c hc
        simp at hc
      · exact protoSafe_chunkLoop t _ 0 h
  · intro c hc
    simp at hc

theorem protoSafe_initPhase (t : Transport) (init : List Nat) (hist : List Event) :
    ProtoSafe t (initPhase t init hist) := by
  unfold initPhase
  refine protoSafe_obind t _ _ (protoSafe_tryInto t hist init.length) ?_
  intro h n
  refine protoSafe_obind t _ _ (protoSafe_requestF t (.create .command n) h) ?_
  intro h2 _
  refine protoSafe_obind t _ _ (protoSafe_writeF t init h2) ?_
  intro h3 _
  refine protoSafe_obind t _ _ (protoSafe_requestF t .getCrc h3) ?_
  intro h4 res
  split
  · split
    · intro c hc
      simp at hc
    · split
      · intro c hc
        simp at hc
      · refine protoSafe_obind t _ _ (protoSafe_requestF t .execute h4) ?_
        intro h5 _
        intro c hc
        simp at hc
  · intro c hc
    simp at hc

theorem protoSafe_dfu_run (t : Transport) (init fw : List Nat) :
    ProtoSafe t (dfu_run t init fw) := by
  unfold dfu_run
  refine protoSafe_obind t _ _ (protoSafe_requestF t (.setPrn 0) []) ?_
  intro h _
  refine protoSafe_obind t _ _ (protoSafe_initPhase t init h) ?_
  intro h2 _
  exact protoSafe_selectPhase t fw h2

/-- C4: a response that decodes successfully with a non Success result code
makes the request primitive fail immediately with a ProtocolError carrying
that exact code, after a single attempt with no retry; and whenever a
session ends with a ProtocolError, its trace ends with the very control
attempt whose decoded reply carried that code, so no further request is
issued after it. -/
theorem c4_protocol_error :
    (∀ (t : Transport) (req : Request) (hist : List Event) (bytes : List Nat) (r : Response),
      t.respond hist req.toBytes = .reply bytes → parseResponse bytes = .pok r →
      r.failed = true →
      requestF t req hist = (hist ++ [.ctrl req.toBytes], .err (.protocolError r.result))) ∧
    (∀ (t : Transport) (init fw : List Nat) (h : List Event) (c : ResponseCode),
      dfu_run t init fw = (h, .err (.protocolError c)) →
      ∃ pre reqb bytes r, h = pre ++ [Event.ctrl reqb] ∧ t.respond pre reqb = .reply bytes ∧
        parseResponse bytes = .pok r ∧ r.result = c ∧ r.failed = true) := by
  constructor
  · intro t req hist bytes r hresp hparse hfail
    rw [requestF_as_loop, requestLoop_reply _ _ _ _ _ hresp, hparse]
    simp [hfail]
  · intro t init fw h c heq
    have h2 := protoSafe_dfu_run t init fw c (by rw [heq])
    rw [heq] at h2
    exact h2

/-! ## Event provenance of the request primitive -/

theorem requestLoop_events (t : Transport) (b : List Nat) :
    ∀ (fuel : Nat) (hist h : List Event) (o : Outc Response),
      requestLoop t b fuel hist = (h, o) → ∀ e ∈ h, e ∈ hist ∨ e = Event.ctrl b := by
  intro fuel
  induction fuel with
  | zero =>
    intro hist h o heq e he
    rw [requestLoop_zero] at heq
    simp only [Prod.mk.injEq] at heq
    obtain ⟨h1, -⟩ := heq
    subst h1
    exact Or.inl he
  | succ fuel ih =>
    intro hist h o heq e he
    rcases hresp : t.respond hist b with _ | e2 | bytes
    · rw [requestLoop_timeout _ _ _ _ hresp] at heq
      rcases ih _ _ _ heq e he with hin | heqe
      · rcases List.mem_append.mp hin with h1 | h2
        · exact Or.inl h1
        · simp only [List.mem_singleton] at h2
          exact Or.inr h2
      · exact Or.inr heqe
    · rw [requestLoop_fail _ _ _ _ _ hresp] at heq
      simp only [Prod.mk.injEq] at heq
      obtain ⟨h1, -⟩ := heq
      subst h1
      rcases List.mem_append.mp he with h1 | h2
      · exact Or.inl h1
      · simp only [List.mem_singleton] at h2
        exact Or.inr h2
    · rw [requestLoop_reply _ _ _ _ _ hresp] at heq
      have hh : h = hist ++ [Event.ctrl b] := by
        split at heq
        · simp only [Prod.mk.injEq] at heq
          exact heq.1.symm
        · simp only [Prod.mk.injEq] at heq
          exact heq.1.symm
        · split at heq <;>
            (simp only [Prod.mk.injEq] at heq; exact heq.1.symm)
      subst hh
      rcases List.mem_append.mp he with h1 | h2
      · exact Or.inl h1
      · simp only [List.mem_singleton] at h2
        exact Or.inr h2

theorem tryIntoU32_fst (hist : List Event) (n : Nat) : (tryIntoU32 hist n).1 = hist := by
  unfold tryIntoU32
  split <;> rfl

/-- A history from before the streaming loop: no Create(Data) request was
issued (no control payload starting 0x01 0x02) and every data write carried
the init packet. -/
def PreTrace (init : List Nat) (h : List Event) : Prop :=
  (∀ b, Event.ctrl b ∈ h → b.take 2 ≠ [1, 2]) ∧ (∀ b, Event.data b ∈ h → b = init)

theorem preTrace_nil (init : List Nat) : PreTrace init [] := by
  constructor <;> intro b hb <;> simp at hb

theorem preTrace_requestF (init : List Nat) (t : Transport) (req : Request)
    (hist h : List Event) (o : Outc Response) (heq : requestF t req hist = (h, o))
    (hreq : req.toBytes.take 2 ≠ [1, 2]) (hg : PreTrace init hist) : PreTrace init h := by
  constructor
  · intro b hb
    rcases requestLoop_events t req.toBytes 3 hist h o heq (Event.ctrl b) hb with hin | heqe
    · exact hg.1 b hin
    · injection heqe with hb2
      subst hb2
      exact hreq
  · intro b hb
    rcases requestLoop_events t req.toBytes 3 hist h o heq (Event.data b) hb with hin | heqe
    · exact hg.2 b hin
    · exact absurd heqe (by simp)

theorem writeF_fst (t : Transport) (b : List Nat) (hist : List Event) :
    (writeF t b hist).1 = hist ++ [Event.data b] := by
  unfold writeF
  split <;> rfl

theorem preTrace_writeF (init : List Nat) (t : Transport) (hist h : List Event)
    (o : Outc Unit) (heq : writeF t init hist = (h, o)) (hg : PreTrace init hist) :
    PreTrace init h := by
  have hh : h = hist ++ [Event.data init] := by
    rw [← writeF_fst t init hist, heq]
  subst hh
  constructor
  · intro b hb
    rcases List.mem_append.mp hb with h1 | h2
    · exact hg.1 b h1
    · simp at h2
  · intro b hb
    rcases List.mem_append.mp hb with h1 | h2
    · exact hg.2 b h1
    · simp only [List.mem_singleton, Event.data.injEq] at h2
      exact h2

theorem preTrace_initPhase (t : Transport) (init : List Nat) (hist h : List Event)
    (o : Outc Unit) (heq : initPhase t init hist = (h, o)) (hg : PreTrace init hist) :
    PreTrace init h := by
  unfold initPhase at heq
  rcases h1eq : tryIntoU32 hist init.length with ⟨h1, o1⟩
  rw [h1eq] at heq
  have hh1 : h1 = hist := by rw [← tryIntoU32_fst hist init.length, h1eq]
  subst hh1
  cases o1 with
  | err e =>
    simp only [obind, Prod.mk.injEq] at heq
    obtain ⟨rfl, -⟩ := heq
    exact hg
  | panic p =>
    simp only [obind, Prod.mk.injEq] at heq
    obtain ⟨rfl, -⟩ := heq
    exact hg
  | ok n =>
    simp only [obind] at heq
    rcases h2eq : requestF t (.create .command n) h1 with ⟨h2, o2⟩
    rw [h2eq] at heq
    have hg2 : PreTrace init h2 :=
      preTrace_requestF init t _ h1 h2 o2 h2eq
        (by simp [Request.toBytes, Object.toByte]) hg
    cases o2 with
    | err e =>
      simp only [obind, Prod.mk.injEq] at heq
      obtain ⟨rfl, -⟩ := heq
      exact hg2
    | panic p =>
      simp only [obind, Prod.mk.injEq] at heq
      obtain ⟨rfl, -⟩ := heq
      exact hg2
    | ok _ =>
      simp only [obind] at heq
      rcases h3eq : writeF t init h2 with ⟨h3, o3⟩
      rw [h3eq] at heq
      have hg3 : PreTrace init h3 := preTrace_writeF init t h2 h3 o3 h3eq hg2
      cases o3 with
      | err e =>
        simp only [obind, Prod.mk.injEq] at heq
        obtain ⟨rfl, -⟩ := heq
        exact hg3
      | panic p =>
        simp only [obind, Prod.mk.injEq] at heq
        obtain ⟨rfl, -⟩ := heq
        exact hg3
      | ok _ =>
        simp only [obind] at heq
        rcases h4eq : requestF t .getCrc h3 with ⟨h4, o4⟩
        rw [h4eq] at heq
        have hg4 : PreTrace init h4 :=
          preTrace_requestF init t _ h3 h4 o4 h4eq (by simp [Request.toBytes]) hg3
        cases o4 with
        | err e =>
          simp only [obind, Prod.mk.injEq] at heq
          obtain ⟨rfl, -⟩ := heq
          exact hg4
        | panic p =>
          simp only [obind, Prod.mk.injEq] at heq
          obtain ⟨rfl, -⟩ := heq
          exact hg4
        | ok res =>
          simp only [obind] at heq
          split at heq
          · split at heq
            · simp only [Prod.mk.injEq] at heq
              obtain ⟨rfl, -⟩ := heq
              exact hg4
            · split at heq
              · simp only [Prod.mk.injEq] at heq
                obtain ⟨rfl, -⟩ := heq
                exact hg4
              · rcases h5eq : requestF t .execute h4 with ⟨h5, o5⟩
                rw [h5eq] at heq
                have hg5 : PreTrace init h5 :=
                  preTrace_requestF init t _ h4 h5 o5 h5eq (by simp [Request.toBytes]) hg4
                cases o5 <;>
                  (simp only [obind, Prod.mk.injEq] at heq;
                   obtain ⟨rfl, -⟩ := heq; exact hg5)
          · simp only [Prod.mk.injEq] at heq
            obtain ⟨rfl, -⟩ := heq
            exact hg4

/-! ## The resume panic cannot come from the streaming loop -/

theorem noResume_obind {α β : Type} (x : List Event × Outc α)
    (f : List Event → α → List Event × Outc β)
    (hx : x.2 ≠ .panic .resumeUnimplemented)
    (hf : ∀ h a, (f h a).2 ≠ .panic .resumeUnimplemented) :
    (obind x f).2 ≠ .panic .resumeUnimplemented := by
  rcases x with ⟨h, o⟩
  cases o with
  | ok a => exact hf h a
  | err e =>
    intro hc
    simp only [obind] at hc
    exact absurd hc (by simp)
  | panic p =>
    intro hc
    simp only [obind, Outc.panic.injEq] at hc
    exact hx (by simp [hc])

theorem requestLoop_no_resume (t : Transport) (b : List Nat) :
    ∀ (fuel : Nat) (hist : List Event),
      (requestLoop t b fuel hist).2 ≠ .panic .resumeUnimplemented := by
  intro fuel
  induction fuel with
  | zero =>
    intro hist
    rw [requestLoop_zero]
    simp
  | succ fuel ih =>
    intro hist
    rcases hresp : t.respond hist b with _ | e | bytes
    · rw [requestLoop_timeout _ _ _ _ hresp]
      exact ih _
    · rw [requestLoop_fail _ _ _ _ _ hresp]
      simp
    · rw [requestLoop_reply _ _ _ _ _ hresp]
      split
      · simp
      · simp
      · split <;> simp

theorem writeF_no_resume (t : Transport) (b : List Nat) (hist : List Event) :
    (writeF t b hist).2 ≠ .panic .resumeUnimplemented := by
  unfold writeF
  split <;> simp

theorem tryIntoU32_no_resume (hist : List Event) (n : Nat) :
    (tryIntoU32 hist n).2 ≠ .panic .resumeUnimplemented := by
  unfold tryIntoU32
  split <;> simp

theorem shardLoop_no_resume (t : Transport) :
    ∀ (shards : List (List Nat)) (crc : Nat) (hist : List Event),
      (shardLoop t shards crc hist).2 ≠ .panic .resumeUnimplemented := by
  intro shards
  induction shards with
  | nil =>
    intro crc hist
    simp [shardLoop]
  | cons s rest ih =>
    intro crc hist
    unfold shardLoop
    refine noResume_obind _ _ (writeF_no_resume t s hist) ?_
    intro h _
    refine noResume_obind _ _ (requestLoop_no_resume t _ 3 h) ?_
    intro h2 res
    split
    · split
      · simp
      · exact ih _ h2
    · exact ih crc h2

theorem chunkLoop_no_resume (t : Transport) :
    ∀ (cs : List (List Nat)) (crc : Nat) (hist : List Event),
      (chunkLoop t cs crc hist).2 ≠ .panic .resumeUnimplemented := by
  intro cs
  induction cs with
  | nil =>
    intro crc hist
    simp [chunkLoop]
  | cons ch rest ih =>
    intro crc hist
    unfold chunkLoop
    refine noResume_obind _ _ (tryIntoU32_no_resume hist ch.length) ?_
    intro h n
    refine noResume_obind _ _ (requestLoop_no_resume t _ 3 h) ?_
    intro h2 _
    split
    · simp
    · refine noResume_obind _ _ (shardLoop_no_resume t _ crc h2) ?_
      intro h3 crc2
      refine noResume_obind _ _ (requestLoop_no_resume t _ 3 h3) ?_
      intro h4 _
      exact ih crc2 h4

/-- C5: when the Select(Data) exchange succeeds but reports a non zero
offset or checksum, the select phase ends at once with the resume refusal
(the unimplemented DFU resumption panic, the ResumeNotSupported failure of
the spec); and whenever a whole session ends with that refusal, its trace
contains no Create(Data) request (no control payload starting 0x01 0x02)
and every data write carried the init packet, so no firmware data write was
issued. -/
theorem c5_resume_refusal :
    (∀ (t : Transport) (fw : List Nat) (hist h : List Event) (r : Response)
        (off chk msz : Nat),
      requestF t (.select .data) hist = (h, .ok r) →
      r.data = .select off chk msz → off ≠ 0 ∨ chk ≠ 0 →
      selectPhase t fw hist = (h, .panic .resumeUnimplemented)) ∧
    (∀ (t : Transport) (init fw : List Nat) (h : List Event),
      dfu_run t init fw = (h, .panic .resumeUnimplemented) →
      (∀ b, Event.ctrl b ∈ h → b.take 2 ≠ [1, 2]) ∧
      (∀ b, Event.data b ∈ h → b = init)) := by
  constructor
  · intro t fw hist h r off chk msz hreq hdata hoc
    unfold selectPhase
    rw [hreq]
    simp only [obind]
    rw [hdata]
    simp [hoc]
  · intro t init fw h heq
    unfold dfu_run at heq
    rcases h1eq : requestF t (.setPrn 0) [] with ⟨h1, o1⟩
    rw [h1eq] at heq
    have hg1 : PreTrace init h1 :=
      preTrace_requestF init t _ [] h1 o1 h1eq (by simp [Request.toBytes, le4])
        (preTrace_nil init)
    cases o1 with
    | err e =>
      simp only [obind, Prod.mk.injEq] at heq
      exact absurd heq.2 (by simp)
    | panic p =>
      simp only [obind, Prod.mk.injEq] at heq
      obtain ⟨rfl, -⟩ := heq
      exact hg1
    | ok _ =>
      simp only [obind] at heq
      rcases h2eq : initPhase t init h1 with ⟨h2, o2⟩
      rw [h2eq] at heq
      have hg2 : PreTrace init h2 := preTrace_initPhase t init h1 h2 o2 h2eq hg1
      cases o2 with
      | err e =>
        simp only [obind, Prod.mk.injEq] at heq
        exact absurd heq.2 (by simp)
      | panic p =>
        simp only [obind, Prod.mk.injEq] at heq
        obtain ⟨rfl, -⟩ := heq
        exact hg2
      | ok _ =>
        simp only [obind] at heq
        unfold selectPhase at heq
        rcases h3eq : requestF t (.select .data) h2 with ⟨h3, o3⟩
        rw [h3eq] at heq
        have hg3 : PreTrace init h3 :=
          preTrace_requestF init t _ h2 h3 o3 h3eq
            (by simp [Request.toBytes, Object.toByte]) hg2
        cases o3 with
        | err e =>
          simp only [obind, Prod.mk.injEq] at heq
          exact absurd heq.2 (by simp)
        | panic p =>
          simp only [obind, Prod.mk.injEq] at heq
          obtain ⟨rfl, -⟩ := heq
          exact hg3
        | ok res =>
          simp only [obind] at heq
          split at heq
          · split at heq
            · simp only [Prod.mk.injEq] at heq
              obtain ⟨rfl, -⟩ := heq
              exact hg3
            · split at heq
              · simp only [Prod.mk.injEq] at heq
                exact absurd heq.2 (by simp)
              · exact absurd (congrArg Prod.snd heq)
                  (by simpa using chunkLoop_no_resume t _ 0 h3)
          · simp only [Prod.mk.injEq] at heq
            exact absurd heq.2 (by simp)

/-- A device like the truthful one except that Select(Data) reports the
resumable state (max size 64, offset 16, checksum 0xDEADBEEF) of spec
scenario 5. -/
def resumingDev : Transport where
  mtu := 244
  respond hist req :=
    match req with
    | 2 :: _ => .reply [0x60, 2, 1]
    | 1 :: _ => .reply [0x60, 1, 1]
    | [3] => .reply ([0x60, 3, 1] ++ le4 (curBuf hist).length ++ le4 (crc32 (curBuf hist) 0))
    | [4] => .reply [0x60, 4, 1]
    | 6 :: _ => .reply ([0x60, 6, 1] ++ le4 64 ++ le4 16 ++ le4 0xDEADBEEF)
    | _ => .timeout
  writeData _ _ := none

/-- Witness for C5 against the resuming device. -/
theorem c5_resume_refusal_witness :
    selectPhase resumingDev [1, 2, 3] [] = ([.ctrl [6, 2]], .panic .resumeUnimplemented) :=
  c5_resume_refusal.1 resumingDev [1, 2, 3] [] [.ctrl [6, 2]]
    ⟨.objectSelect, .success, .select 16 0xDEADBEEF 64⟩ 16 0xDEADBEEF 64
    (by decide) (by decide) (Or.inl (by decide))

/-- C2 counterexample: against the device that reports a wrong GetCRC
offset (9 bytes beyond the bytes actually received) during streaming while
keeping the checksum truthful, the session still terminates Ok. The second
conjunct exhibits the lying reply at the exact streaming history of this
run, where only 1 firmware byte has been written but the device reports
offset 10: the claim says the session must fail with IntegrityError on this
offset mismatch, but the code never compares the offset. -/
theorem c2_counterexample :
    (dfu_run (wrongOffDev 4 8) [0xAA] [0xBB]).2 = .ok () ∧
    (wrongOffDev 4 8).respond
      [.ctrl (2 :: le4 0), .ctrl (1 :: 1 :: le4 1), .data [0xAA], .ctrl [3], .ctrl [4],
       .ctrl [6, 2], .ctrl (1 :: 2 :: le4 1), .data [0xBB]] [3] =
      .reply ([0x60, 3, 1] ++ le4 10 ++ le4 (crc32 [0xBB] 0)) ∧
    (10 : Nat) ≠ 1 :=
  ⟨by decide, by decide, by decide⟩

/-- C2 amended: after every shard write the host updates only its running
CRC (crc32 shard crcv) and compares it against the checksum of the GetCRC
reply; the device reported offset is never compared (off below is
unconstrained). On checksum mismatch the session fails with the
unimplemented invalid CRC recovery panic (the IntegrityError failure of the
spec); on match the host running crc becomes, and hence equals, the device
reported checksum. -/
theorem c2_amended (t : Transport) (shard : List Nat) (rest : List (List Nat))
    (crcv : Nat) (hist h2 : List Event) (r : Response) (off chk : Nat)
    (hwrite : t.writeData hist shard = none)
    (hreq : requestF t .getCrc (hist ++ [.data shard]) = (h2, .ok r))
    (hdata : r.data = .crc off chk) :
    (chk ≠ crc32 shard crcv →
      shardLoop t (shard :: rest) crcv hist = (h2, .panic .crcRecoveryUnimplemented)) ∧
    (chk = crc32 shard crcv →
      shardLoop t (shard :: rest) crcv hist = shardLoop t rest chk h2) := by
  have hw : writeF t shard hist = (hist ++ [.data shard], .ok ()) := by
    unfold writeF
    rw [hwrite]
  constructor <;> intro hchk
  · simp only [shardLoop, hw, obind]
    rw [hreq]
    simp only [obind]
    rw [hdata]
    simp [hchk]
  · simp only [shardLoop, hw, obind]
    rw [hreq]
    simp only [obind]
    rw [hdata]
    simp [hchk]

/-- Witness for the amended C2 against the truthful device: one shard,
matching checksum, the loop continues carrying the device checksum. -/
theorem c2_amended_witness :
    shardLoop (truthfulDev 4 8) [[7]] 0 [.ctrl [6, 2]] =
      shardLoop (truthfulDev 4 8) [] (crc32 [7] 0) [.ctrl [6, 2], .data [7], .ctrl [3]] :=
  (c2_amended (truthfulDev 4 8) [7] [] 0 [.ctrl [6, 2]] [.ctrl [6, 2], .data [7], .ctrl [3]]
    ⟨.crcGet, .success, .crc 1 (crc32 [7] 0)⟩ 1 (crc32 [7] 0)
    rfl (by decide) (by decide)).2 (by decide)

/-- C6 counterexample: with mtu 1 and a 2 byte init packet, the session
against the truthful device issues exactly one write_data call carrying the
whole 2 byte init packet, which exceeds the 1 byte mtu: the claim says the
init packet is sent in write_data calls of at most mtu bytes each. -/
theorem c6_counterexample :
    dfu_run (truthfulDev 1 5) [0xAA, 0xBB] [] =
      ([.ctrl (2 :: le4 0), .ctrl (1 :: 1 :: le4 2), .data [0xAA, 0xBB],
        .ctrl [3], .ctrl [4], .ctrl [6, 2]], .ok ()) ∧
    ¬ ((2 : Nat) ≤ (truthfulDev 1 5).mtu) :=
  ⟨by decide, by decide⟩

/-- C6 amended: the init packet is sent as a single write_data call
carrying the whole packet (even when its length exceeds the mtu), followed
by a single GetCRC verified against CRC32(init, 0) and the init length,
followed by a single Execute. -/
theorem c6_amended (init : List Nat) (m maxSize : Nat) (hist : List Event)
    (hinit : init.length < 2 ^ 32) (hbuf : curBuf hist = []) :
    initPhase (truthfulDev m maxSize) init hist =
      (hist ++ [.ctrl (1 :: 1 :: le4 init.length), .data init, .ctrl [3], .ctrl [4]],
        .ok ()) :=
  initPhase_truthful m maxSize init hist hinit hbuf

/-- Witness for the amended C6 with an init packet longer than the mtu. -/
theorem c6_amended_witness :
    initPhase (truthfulDev 1 5) [0xAA, 0xBB] [] =
      ([] ++ [.ctrl (1 :: 1 :: le4 2), .data [0xAA, 0xBB], .ctrl [3], .ctrl [4]],
        .ok ()) :=
  c6_amended [0xAA, 0xBB] 1 5 [] (by decide) (by decide)

/-- A device whose GetCRC reply is a Success response without the Crc
payload shape (it echoes the Execute opcode, so the payload decodes as
Empty). -/
def shapelessDev : Transport where
  mtu := 244
  respond _ req :=
    match req with
    | 2 :: _ => .reply [0x60, 2, 1]
    | 1 :: _ => .reply [0x60, 1, 1]
    | [3] => .reply [0x60, 4, 1]
    | [4] => .reply [0x60, 4, 1]
    | 6 :: _ => .reply ([0x60, 6, 1] ++ le4 8 ++ le4 0 ++ le4 0)
    | _ => .timeout
  writeData _ _ := none

/-- C10: a successful GetCRC exchange whose decoded payload is not the Crc
shape is silently accepted in the firmware streaming loop, which proceeds
to the next shard with no offset or checksum verification and an unchanged
running crc, whereas the same condition in the init packet phase fails the
session with the unexpected response error. -/
theorem c10_shapeless_crc :
    (∀ (t : Transport) (shard : List Nat) (rest : List (List Nat)) (crcv : Nat)
        (hist h2 : List Event) (r : Response),
      t.writeData hist shard = none →
      requestF t .getCrc (hist ++ [.data shard]) = (h2, .ok r) →
      r.data.isCrc = false →
      shardLoop t (shard :: rest) crcv hist = shardLoop t rest crcv h2) ∧
    (∀ (t : Transport) (init : List Nat) (hist h1 h2 h3 : List Event) (r1 r2 : Response),
      init.length < 2 ^ 32 →
      requestF t (.create .command init.length) hist = (h1, .ok r1) →
      writeF t init h1 = (h2, .ok ()) →
      requestF t .getCrc h2 = (h3, .ok r2) →
      r2.data.isCrc = false →
      initPhase t init hist = (h3, .err .initUnexpectedResponse)) := by
  constructor
  · intro t shard rest crcv hist h2 r hwrite hreq hcrc
    have hw : writeF t shard hist = (hist ++ [.data shard], .ok ()) := by
      unfold writeF
      rw [hwrite]
    simp only [shardLoop, hw, obind]
    rw [hreq]
    simp only [obind]
    cases hd : r.data with
    | crc o chk =>
      rw [hd] at hcrc
      simp [ResponseData.isCrc] at hcrc
    | empty => rfl
    | select o chk msz => rfl
  · intro t init hist h1 h2 h3 r1 r2 hlen hcreate hwriteF hgetcrc hcrc
    unfold initPhase
    simp only [tryIntoU32, if_pos hlen, obind]
    rw [hcreate]
    simp only [obind]
    rw [hwriteF]
    simp only [obind]
    rw [hgetcrc]
    simp only [obind]
    cases hd : r2.data with
    | crc o chk =>
      rw [hd] at hcrc
      simp [ResponseData.isCrc] at hcrc
    | empty => rfl
    | select o chk msz => rfl

/-- Witness for C10: against the shapeless device a one shard loop accepts
the shard with no verification, while the init phase fails. -/
theorem c10_shapeless_crc_witness :
    shardLoop shapelessDev [[5]] 0 [] = shardLoop shapelessDev [] 0 [.data [5], .ctrl [3]] :=
  c10_shapeless_crc.1 shapelessDev [5] [] 0 [] [.data [5], .ctrl [3]]
    ⟨.objectExecute, .success, .empty⟩ rfl (by decide) (by decide)

/-- C7 counterexample: the 3 byte input of a successful GetCRC response
with no payload. The claim says parsing is total and returns a
MalformedResponse error on a payload too short for the declared shape
(fewer than 11 bytes for a successful GetCRC); the code instead panics on
the out of range slice bytes[3..7]. -/
theorem c7_counterexample : parseResponse [0x60, 0x03, 0x01] = .ppanic := by decide

/-- C7 amended: parsing returns a MalformedResponse error exactly when the
present header byte is not 0x60, or the present opcode byte or result code
byte is unrecognized; on inputs too short for the bytes the parser reads
(no header byte at all, a valid header with no opcode byte, a decodable
opcode with no result code byte, or a successful GetCRC shorter than 11
bytes or successful Select shorter than 15 bytes) it panics instead of
returning an error. -/
theorem c7_amended (bytes : List Nat) :
    ((∃ k, parseResponse bytes = .perr k) ↔
      (∃ b0x, bytes.head? = some b0x ∧ b0x ≠ 0x60) ∨
      (bytes.head? = some 0x60 ∧ ∃ b1x, bytes[1]? = some b1x ∧ OpCode.ofByte b1x = none) ∨
      (bytes.head? = some 0x60 ∧
        (∃ b1x op, bytes[1]? = some b1x ∧ OpCode.ofByte b1x = some op) ∧
        ∃ b2x, bytes[2]? = some b2x ∧ ResponseCode.ofByte b2x = none)) ∧
    (parseResponse bytes = .ppanic ↔
      (bytes = [] ∨
       (bytes.head? = some 0x60 ∧ bytes.length = 1) ∨
       (bytes.head? = some 0x60 ∧
         (∃ b1x op, bytes[1]? = some b1x ∧ OpCode.ofByte b1x = some op) ∧
         bytes.length = 2) ∨
       (bytes.head? = some 0x60 ∧
         (∃ b1x, bytes[1]? = some b1x ∧ OpCode.ofByte b1x = some .crcGet) ∧
         (∃ b2x, bytes[2]? = some b2x ∧ ResponseCode.ofByte b2x = some .success) ∧
         bytes.length < 11) ∨
       (bytes.head? = some 0x60 ∧
         (∃ b1x, bytes[1]? = some b1x ∧ OpCode.ofByte b1x = some .objectSelect) ∧
         (∃ b2x, bytes[2]? = some b2x ∧ ResponseCode.ofByte b2x = some .success) ∧
         bytes.length < 15))) := by
  rcases bytes with _ | ⟨b0, _ | ⟨b1, _ | ⟨b2, rest⟩⟩⟩
  · simp [parseResponse]
  · by_cases h0 : b0 = 0x60 <;> simp [parseResponse, h0]
  · by_cases h0 : b0 = 0x60
    · rcases hop : OpCode.ofByte b1 with _ | op <;> simp [parseResponse, h0, hop]
    · simp [parseResponse, h0]
  · by_cases h0 : b0 = 0x60
    · rcases hop : OpCode.ofByte b1 with _ | op
      · simp [parseResponse, h0, hop]
      · rcases hrc : ResponseCode.ofByte b2 with _ | rc
        · simp [parseResponse, h0, hop, hrc]
        · by_cases hshape1 : rc = ResponseCode.success ∧ op = OpCode.crcGet
          · obtain ⟨hrc1, hop1⟩ := hshape1
            subst hrc1
            subst hop1
            by_cases hlen : rest.length + 3 < 11 <;>
              simp [parseResponse, h0, hop, hrc, hlen]
          · by_cases hshape2 : rc = ResponseCode.success ∧ op = OpCode.objectSelect
            · obtain ⟨hrc1, hop1⟩ := hshape2
              subst hrc1
              subst hop1
              by_cases hlen : rest.length + 3 < 15 <;>
                simp [parseResponse, h0, hop, hrc, hlen, hshape1]
            · simp [parseResponse, h0, hop, hrc, hshape1, hshape2]
              exact ⟨fun hopc hrcs => absurd ⟨hrcs, hopc⟩ hshape1,
                fun hopc hrcs => absurd ⟨hrcs, hopc⟩ hshape2⟩
    · simp [parseResponse, h0]

/-! ## Package reader (src/src/package.rs) -/

/-- Model of a serde_json value at the granularity extract observes:
null, a string, an object with named fields, or anything else (numbers,
booleans, arrays), which is neither an object nor a string. -/
inductive JVal
  | null
  | str (s : String)
  | obj (fields : List (String × JVal))
  | other

/-- Indexing a serde_json value with a string key: the field value on an
object that has the key, Null otherwise (also on non objects). -/
def JVal.idx (v : JVal) (key : String) : JVal :=
  match v with
  | .obj fields =>
    match fields.find? (fun f => f.1 = key) with
    | some f => f.2
    | none => .null
  | _ => .null

/-- Value::is_object. -/
def JVal.isObject : JVal → Bool
  | .obj _ => true
  | _ => false

/-- Value::as_str. -/
def JVal.asStr : JVal → Option String
  | .str s => some s
  | _ => none

/-- The fallible environment extract runs against: whether File::open and
ZipArchive::new succeed, whether by_name("manifest.json") finds the entry,
the parsed manifest (none models a serde parse failure), and for each
member name the combined by_name plus read_to_end outcome. -/
structure PkgEnv where
  fileOpen : Bool
  zipOpen : Bool
  manifestFound : Bool
  manifestJson : Option JVal
  member : String → Option (List Nat)

/-- Error return sites of extract (each a question mark propagation). -/
inductive PkgErr
  | ioErr
  | zipErr
  | manifestMissing
  | jsonErr
  | memberErr
deriving DecidableEq

/-- Panic sites of extract: the todo macros for bootloader and softdevice
manifest entries and the unwrap on as_str of the application member
names. -/
inductive PkgPanic
  | todoBootloader
  | todoSoftdevice
  | unwrapNone
deriving DecidableEq

/-- Outcome of extract: the two member contents, an error value, or a
panic. -/
inductive ExtractRes
  | ok (dat bin : List Nat)
  | err (e : PkgErr)
  | panic (p : PkgPanic)

/-- Pub fn extract from package.rs, in source order: open the file, open
the archive, find and parse manifest.json, panic on a bootloader or
softdevice object entry (todo macro), read the application dat_file and
bin_file names (unwrap panics when missing or not a string), then read both
members. -/
def extract (env : PkgEnv) : ExtractRes :=
  if ¬ env.fileOpen then .err .ioErr
  else if ¬ env.zipOpen then .err .zipErr
  else if ¬ env.manifestFound then .err .manifestMissing
  else
    match env.manifestJson with
    | none => .err .jsonErr
    | some manifest =>
      if ((manifest.idx "manifest").idx "bootloader").isObject then .panic .todoBootloader
      else if ((manifest.idx "manifest").idx "softdevice").isObject then .panic .todoSoftdevice
      else
        match (((manifest.idx "manifest").idx "application").idx "dat_file").asStr with
        | none => .panic .unwrapNone
        | some datName =>
          match (((manifest.idx "manifest").idx "application").idx "bin_file").asStr with
          | none => .panic .unwrapNone
          | some binName =>
            match env.member datName with
            | none => .err .memberErr
            | some dat =>
              match env.member binName with
              | none => .err .memberErr
              | some bin => .ok dat bin

/-- A well formed environment whose manifest also carries a bootloader
entry. -/
def bootloaderEnv : PkgEnv where
  fileOpen := true
  zipOpen := true
  manifestFound := true
  manifestJson := some (.obj [("manifest", .obj
    [("bootloader", .obj []),
     ("application", .obj [("dat_file", .str "app.dat"), ("bin_file", .str "app.bin")])])])
  member := fun _ => some []

/-- C9 counterexample: on an archive whose manifest carries a bootloader
entry, extract hits the todo macro and panics instead of returning a
PackageError style error value as the claim requires; likewise a manifest
without an application entry panics on unwrap, and so does a manifest whose
application entry names a dat_file but no bin_file. -/
theorem c9_counterexample :
    extract bootloaderEnv = .panic .todoBootloader ∧
    extract { bootloaderEnv with
      manifestJson := some (.obj [("manifest", .obj [])]) } = .panic .unwrapNone ∧
    extract { bootloaderEnv with
      manifestJson := some (.obj [("manifest", .obj
        [("application", .obj [("dat_file", .str "app.dat")])])]) } = .panic .unwrapNone :=
  ⟨rfl, rfl, rfl⟩

/-- C9 amended: extract returns an error value when the archive cannot be
opened (file or zip), the manifest entry is missing, the manifest cannot be
parsed, or either named member cannot be read, and returns both member
contents otherwise; but a bootloader or softdevice object entry in the
manifest and a missing (or non string) application dat_file or bin_file
name make it panic (todo and unwrap) rather than return an error value. -/
theorem c9_amended (env : PkgEnv) :
    (env.fileOpen = false → extract env = .err .ioErr) ∧
    (env.fileOpen = true → env.zipOpen = false → extract env = .err .zipErr) ∧
    (env.fileOpen = true → env.zipOpen = true → env.manifestFound = false →
      extract env = .err .manifestMissing) ∧
    (env.fileOpen = true → env.zipOpen = true → env.manifestFound = true →
      env.manifestJson = none → extract env = .err .jsonErr) ∧
    (∀ mj, env.fileOpen = true → env.zipOpen = true → env.manifestFound = true →
      env.manifestJson = some mj →
      (((mj.idx "manifest").idx "bootloader").isObject = true →
        extract env = .panic .todoBootloader) ∧
      (((mj.idx "manifest").idx "bootloader").isObject = false →
        ((mj.idx "manifest").idx "softdevice").isObject = true →
        extract env = .panic .todoSoftdevice) ∧
      (((mj.idx "manifest").idx "bootloader").isObject = false →
        ((mj.idx "manifest").idx "softdevice").isObject = false →
        ∀ datName binName,
          (((mj.idx "manifest").idx "application").idx "dat_file").asStr = some datName →
          (((mj.idx "manifest").idx "application").idx "bin_file").asStr = some binName →
          (env.member datName = none → extract env = .err .memberErr) ∧
          (∀ dat, env.member datName = some dat → env.member binName = none →
            extract env = .err .memberErr) ∧
          (∀ dat bin, env.member datName = some dat → env.member binName = some bin →
            extract env = .ok dat bin)) ∧
      ((((mj.idx "manifest").idx "bootloader").isObject = false →
        ((mj.idx "manifest").idx "softdevice").isObject = false →
        (((mj.idx "manifest").idx "application").idx "dat_file").asStr = none →
        extract env = .panic .unwrapNone)) ∧
      (((mj.idx "manifest").idx "bootloader").isObject = false →
        ((mj.idx "manifest").idx "softdevice").isObject = false →
        ∀ datName,
          (((mj.idx "manifest").idx "application").idx "dat_file").asStr = some datName →
          (((mj.idx "manifest").idx "application").idx "bin_file").asStr = none →
          extract env = .panic .unwrapNone)) := by
  refine ⟨?_, ?_, ?_, ?_, ?_⟩
  · intro h1
    simp [extract, h1]
  · intro h1 h2
    simp [extract, h1, h2]
  · intro h1 h2 h3
    simp [extract, h1, h2, h3]
  · intro h1 h2 h3 h4
    simp [extract, h1, h2, h3, h4]
  · intro mj h1 h2 h3 h4
    refine ⟨?_, ?_, ?_, ?_, ?_⟩
    · intro hbl
      simp [extract, h1, h2, h3, h4, hbl]
    · intro hbl hsd
      simp [extract, h1, h2, h3, h4, hbl, hsd]
    · intro hbl hsd datName binName hdat hbin
      refine ⟨?_, ?_, ?_⟩
      · intro hm
        simp [extract, h1, h2, h3, h4, hbl, hsd, hdat, hbin, hm]
      · intro dat hm1 hm2
        simp [extract, h1, h2, h3, h4, hbl, hsd, hdat, hbin, hm1, hm2]
      · intro dat bin hm1 hm2
        simp [extract, h1, h2, h3, h4, hbl, hsd, hdat, hbin, hm1, hm2]
    · intro hbl hsd hdat
      simp [extract, h1, h2, h3, h4, hbl, hsd, hdat]
    · intro hbl hsd datName hdat hbin
      simp [extract, h1, h2, h3, h4, hbl, hsd, hdat, hbin]

/-- A fully well formed environment. -/
def goodEnv : PkgEnv where
  fileOpen := true
  zipOpen := true
  manifestFound := true
  manifestJson := some (.obj [("manifest", .obj
    [("application", .obj [("dat_file", .str "app.dat"), ("bin_file", .str "app.bin")])])])
  member := fun name => if name = "app.dat" then some [1, 2] else
    if name = "app.bin" then some [3, 4, 5] else none

/-- Witness for the amended C9: the happy path returns both members. -/
theorem c9_amended_witness : extract goodEnv = .ok [1, 2] [3, 4, 5] :=
  ((((c9_amended goodEnv).2.2.2.2
    (.obj [("manifest", .obj
      [("application", .obj [("dat_file", .str "app.dat"), ("bin_file", .str "app.bin")])])])
    rfl rfl rfl rfl).2.2.1 rfl rfl "app.dat" "app.bin" rfl rfl).2.2 [1, 2] [3, 4, 5] rfl rfl)

/-- A device that rejects everything with InvalidParameter. -/
def rejectingDev : Transport where
  mtu := 244
  respond _ _ := .reply [0x60, 2, 3]
  writeData _ _ := none

/-- Witness for C4: against the rejecting device the first SetPRN request
fails immediately with ProtocolError(InvalidParameter) after one attempt. -/
theorem c4_protocol_error_witness :
    requestF rejectingDev (.setPrn 0) [] =
      ([] ++ [.ctrl (Request.setPrn 0).toBytes],
        .err (.protocolError (Response.mk .receiptNotifSet .invalidParameter .empty).result)) :=
  c4_protocol_error.1 rejectingDev (.setPrn 0) [] [0x60, 2, 3]
    ⟨.receiptNotifSet, .invalidParameter, .empty⟩ rfl (by decide) (by decide)

end NrfDfu
